/-
Verification of the fixed-income data generator and the column-type
inference engine of this repository, against the natural-language
specification.

Sources embedded:
  src/src/utils/generateFixedIncomeData.ts
    generatePosition, generateFixedIncomeData, inferColumnDefs,
    formatHeaderName, inferFieldType, isDateField, isEmailField,
    isUrlField, isEnumField, inferNumberFormatting
  src/src/utils/gridUtils.ts (not load-bearing for the claims below; the
    10% / min 5 / max 50 sampling policy and the full classifier both live
    in the generateFixedIncomeData.ts companion module embedded here)

Modelling conventions:
  * JS numbers are modelled as rationals; faker.number.float { min, max }
    is modelled as an affine interpolation min + u * (max - min) of a unit
    draw u, with 0 <= u <= 1 the faker range contract.  The precision
    option only snaps the draw to a grid inside the same interval, which
    preserves every property proved here, so it is dropped.
  * Dates are rational millisecond timestamps; setFullYear shifted by k years is
    modelled as adding or subtracting k average years.
  * faker.datatype.boolean(p) is modelled as an unconstrained Bool draw.
  * The host string-to-number and date parsers (Number(v), new Date(v))
    are modelled by explicit ASCII parsers covering the formats the data
    model produces; the models are noted at their definitions.
-/
import Mathlib

namespace AgGrid31

/-! ## Record generator: random-draw model -/

/-- One unit draw per faker call of generatePosition that a claim below can
observe.  The remaining faker calls of the source (catalog selections,
return windows, ESG scores, ...) are independent draws that no other field
reads, so they are omitted from the model. -/
structure Draws where
  uIssueDate : ℚ := 0
  uMaturityDate : ℚ := 0
  uIssuePrice : ℚ := 0
  uFaceValue : ℚ := 0
  uCouponRate : ℚ := 0
  uYtm : ℚ := 0
  uDuration : ℚ := 0
  uConvexity : ℚ := 0
  uQuantity : ℚ := 0
  uMarketValue : ℚ := 0
  uUnrealizedGainLoss : ℚ := 0
  uBidPrice : ℚ := 0
  uAskPrice : ℚ := 0
  bCall : Bool := false
  bPut : Bool := false
  uNextCallDate : ℚ := 0
  uNextPutDate : ℚ := 0
  uCallPrice : ℚ := 0
  uPutPrice : ℚ := 0
deriving DecidableEq

/-- The faker contract: every unit draw lies in the closed interval [0, 1]. -/
abbrev UnitDraws (d : Draws) : Prop :=
  (0 ≤ d.uIssueDate ∧ d.uIssueDate ≤ 1) ∧
  (0 ≤ d.uMaturityDate ∧ d.uMaturityDate ≤ 1) ∧
  (0 ≤ d.uIssuePrice ∧ d.uIssuePrice ≤ 1) ∧
  (0 ≤ d.uFaceValue ∧ d.uFaceValue ≤ 1) ∧
  (0 ≤ d.uCouponRate ∧ d.uCouponRate ≤ 1) ∧
  (0 ≤ d.uYtm ∧ d.uYtm ≤ 1) ∧
  (0 ≤ d.uDuration ∧ d.uDuration ≤ 1) ∧
  (0 ≤ d.uConvexity ∧ d.uConvexity ≤ 1) ∧
  (0 ≤ d.uQuantity ∧ d.uQuantity ≤ 1) ∧
  (0 ≤ d.uMarketValue ∧ d.uMarketValue ≤ 1) ∧
  (0 ≤ d.uUnrealizedGainLoss ∧ d.uUnrealizedGainLoss ≤ 1) ∧
  (0 ≤ d.uBidPrice ∧ d.uBidPrice ≤ 1) ∧
  (0 ≤ d.uAskPrice ∧ d.uAskPrice ≤ 1) ∧
  (0 ≤ d.uNextCallDate ∧ d.uNextCallDate ≤ 1) ∧
  (0 ≤ d.uNextPutDate ∧ d.uNextPutDate ≤ 1) ∧
  (0 ≤ d.uCallPrice ∧ d.uCallPrice ≤ 1) ∧
  (0 ≤ d.uPutPrice ∧ d.uPutPrice ≤ 1)

/-- All-zero draws, used for concrete evaluations. -/
def d0 : Draws := {}

/-- Model of faker.number.float { min, max }: the point of [min, max]
selected by the unit draw u. -/
def fakerFloat (mn mx u : ℚ) : ℚ := mn + u * (mx - mn)

/-- Model of faker.number.int { min, max } (value selected by a unit
draw; only interval membership matters to the claims). -/
def fakerNatIn (mn mx : ℕ) (u : ℚ) : ℕ :=
  mn + min (⌊u * ((mx : ℚ) - (mn : ℚ) + 1)⌋.toNat) (mx - mn)

/-- Milliseconds of an average (365.25-day) year, the granularity at which
the source shifts dates by whole years. -/
def yearMs : ℚ := 31557600000

/-- Source randomDate(start, end): a point of the timestamp interval. -/
def randomDateQ (startT endT u : ℚ) : ℚ := startT + u * (endT - startT)

/-- Source getRandomDate(): a date within the last 20 years. -/
def getRandomDateQ (now u : ℚ) : ℚ := randomDateQ (now - 20 * yearMs) now u

/-- Source getRandomFutureDate(): a date within the next 30 years. -/
def getRandomFutureDateQ (now u : ℚ) : ℚ := randomDateQ now (now + 30 * yearMs) u

/-- The claim-relevant fields of one generated position record.  Numeric
fields are rationals, date fields are rational timestamps, and the call/put
date/price fields are Options whose none models the source null. -/
structure Position where
  id : ℕ
  issueDate : ℚ
  maturityDate : ℚ
  issuePrice : ℚ
  faceValue : ℚ
  couponRate : ℚ
  ytm : ℚ
  duration : ℚ
  modifiedDuration : ℚ
  convexity : ℚ
  quantity : ℚ
  marketValue : ℚ
  marketPrice : ℚ
  unrealizedGainLoss : ℚ
  costBasis : ℚ
  bidPrice : ℚ
  askPrice : ℚ
  bidAskSpread : ℚ
  hasCallFeature : Bool
  hasPutFeature : Bool
  nextCallDate : Option ℚ
  nextPutDate : Option ℚ
  callPrice : Option ℚ
  putPrice : Option ℚ
  macaulayDuration : ℚ
deriving DecidableEq

/-- Embedding of generatePosition(id): each draw and each derived field is
computed in source order from the already-drawn inputs of the same record. -/
def generatePosition (id : ℕ) (now : ℚ) (d : Draws) : Position :=
  let issueDate := getRandomDateQ now d.uIssueDate
  let maturityDate := getRandomFutureDateQ now d.uMaturityDate
  let issuePrice := fakerFloat 90 110 d.uIssuePrice
  let faceValue : ℚ := (fakerNatIn 1000 1000000 d.uFaceValue : ℚ) * 1000
  let couponRate := fakerFloat 0.5 8 d.uCouponRate
  let ytm := fakerFloat 0.1 10 d.uYtm
  let duration := fakerFloat 0.1 25 d.uDuration
  let modifiedDuration := duration / (1 + ytm / 100)
  let convexity := fakerFloat 0.01 200 d.uConvexity
  let quantity : ℚ := (fakerNatIn 1 1000 d.uQuantity : ℚ) * 1000
  let marketValue := fakerFloat 0.8 1.2 d.uMarketValue * faceValue * quantity / 1000
  let unrealizedGainLoss := fakerFloat (-0.1) 0.1 d.uUnrealizedGainLoss * marketValue
  let bidPrice := fakerFloat 95 105 d.uBidPrice
  let askPrice := fakerFloat bidPrice (bidPrice * 1.02) d.uAskPrice
  let bidAskSpread := askPrice - bidPrice
  let hasCallFeature := d.bCall
  let hasPutFeature := d.bPut
  let nextCallDate := if hasCallFeature then some (randomDateQ now maturityDate d.uNextCallDate) else none
  let nextPutDate := if hasPutFeature then some (randomDateQ now maturityDate d.uNextPutDate) else none
  let callPrice := if hasCallFeature then some (fakerFloat 100 105 d.uCallPrice) else none
  let putPrice := if hasPutFeature then some (fakerFloat 95 100 d.uPutPrice) else none
  { id := id
    issueDate := issueDate
    maturityDate := maturityDate
    issuePrice := issuePrice
    faceValue := faceValue
    couponRate := couponRate
    ytm := ytm
    duration := duration
    modifiedDuration := modifiedDuration
    convexity := convexity
    quantity := quantity
    marketValue := marketValue
    marketPrice := marketValue / quantity * 1000
    unrealizedGainLoss := unrealizedGainLoss
    costBasis := marketValue - unrealizedGainLoss
    bidPrice := bidPrice
    askPrice := askPrice
    bidAskSpread := bidAskSpread
    hasCallFeature := hasCallFeature
    hasPutFeature := hasPutFeature
    nextCallDate := nextCallDate
    nextPutDate := nextPutDate
    callPrice := callPrice
    putPrice := putPrice
    macaulayDuration := duration * (1 + ytm / 100) }

/-- Number of iterations of the source loop
for (let i = 1; i <= numRows; i++): the loop body runs once for every
integer i with 1 <= i <= numRows, i.e. floor(numRows) times when
numRows >= 1 and zero times otherwise (numRows is a JS number, so a
negative or fractional count is accepted silently). -/
def jsLoopIters (numRows : ℚ) : ℕ :=
  if numRows < 1 then 0 else (⌊numRows⌋).toNat

/-- Embedding of generateFixedIncomeData(numRows): positions for
i = 1 .. numRows in order, record i built from its own draws ds i. -/
def generateFixedIncomeData (numRows : ℚ) (now : ℚ) (ds : ℕ → Draws) : List Position :=
  (List.range (jsLoopIters numRows)).map (fun i => generatePosition (i + 1) now (ds (i + 1)))

/-! ## Schema inferencer: character and string helpers -/

/-- ASCII whitespace, the subset of the JS regex class \s that this code
base can produce. -/
def isWsChar (c : Char) : Bool :=
  c.toNat = 32 || c.toNat = 9 || c.toNat = 10 || c.toNat = 13 || c.toNat = 11 || c.toNat = 12

/-- The regex class [A-Z]. -/
def isUpperChar (c : Char) : Bool := 65 ≤ c.toNat && c.toNat ≤ 90

/-- The regex class [a-z]. -/
def isLowerAsciiChar (c : Char) : Bool := 97 ≤ c.toNat && c.toNat ≤ 122

/-- The regex class [0-9]. -/
def isDigitChar (c : Char) : Bool := 48 ≤ c.toNat && c.toNat ≤ 57

/-- The regex class \w, i.e. [A-Za-z0-9_]. -/
def isWordChar (c : Char) : Bool :=
  isUpperChar c || isLowerAsciiChar c || isDigitChar c || c.toNat = 95

/-- One character of String.prototype.toUpperCase for the ASCII range. -/
def jsUpperChar (c : Char) : Char :=
  if isLowerAsciiChar c then Char.ofNat (c.toNat - 32) else c

/-- One character of String.prototype.toLowerCase for the ASCII range. -/
def jsLowerChar (c : Char) : Char :=
  if isUpperChar c then Char.ofNat (c.toNat + 32) else c

/-- toLowerCase over a character list. -/
def lowerList (l : List Char) : List Char := l.map jsLowerChar

/-- Whether the needle occurs at the start of the haystack. -/
def startsWithL : List Char → List Char → Bool
  | _, [] => true
  | [], _ :: _ => false
  | c :: cs, d :: ds => c = d && startsWithL cs ds

/-- String.prototype.includes: the needle occurs contiguously somewhere in
the haystack. -/
def containsSub : List Char → List Char → Bool
  | [], needle => needle.isEmpty
  | hay@(_ :: tl), needle => startsWithL hay needle || containsSub tl needle

/-- Split a character list at every occurrence of the separator. -/
def splitListOn (sep : Char) : List Char → List (List Char)
  | [] => [[]]
  | c :: rest =>
    let r := splitListOn sep rest
    if c = sep then [] :: r
    else
      match r with
      | [] => [[c]]
      | h :: t => (c :: h) :: t

/-! ## Label derivation (formatHeaderName) -/

/-- Step 1 of formatHeaderName: .replace of every underscore by a space. -/
def underscoresToSpaces (l : List Char) : List Char :=
  l.map (fun c => if c = '_' then ' ' else c)

/-- Step 2 of formatHeaderName: .replace inserting a space before every
capital letter (the regex ([A-Z]) with replacement " $1"). -/
def spaceBeforeUppers : List Char → List Char
  | [] => []
  | c :: rest =>
    if isUpperChar c then ' ' :: c :: spaceBeforeUppers rest
    else c :: spaceBeforeUppers rest

/-- Step 3 of formatHeaderName: .replace of the regex ^\w by the uppercased
matched character (no effect when the first character is not a word
character). -/
def capitalizeFirstWord : List Char → List Char
  | [] => []
  | c :: rest => if isWordChar c then jsUpperChar c :: rest else c :: rest

/-- Worker for step 4: prevWs records whether the previous character
belonged to a whitespace run already emitted as one space. -/
def collapseGo : Bool → List Char → List Char
  | _, [] => []
  | prevWs, c :: rest =>
    if isWsChar c then
      if prevWs then collapseGo true rest
      else ' ' :: collapseGo true rest
    else c :: collapseGo false rest

/-- Step 4 of formatHeaderName: .replace of the regex \s+ by one space. -/
def collapseSpaces (l : List Char) : List Char := collapseGo false l

/-- Step 5 of formatHeaderName: String.prototype.trim. -/
def trimWs (l : List Char) : List Char :=
  ((l.dropWhile isWsChar).reverse.dropWhile isWsChar).reverse

/-- The five replace/trim steps of formatHeaderName on a character list. -/
def jsLabel (l : List Char) : List Char :=
  trimWs (collapseSpaces (capitalizeFirstWord (spaceBeforeUppers (underscoresToSpaces l))))

/-- Embedding of formatHeaderName(field). -/
def formatHeaderName (s : String) : String := String.mk (jsLabel s.toList)

/-- The specification's label algorithm, stated from its own words:
replace underscores with spaces, insert a space before each INTERNAL
uppercase letter, capitalize the first character, collapse repeated
whitespace, trim.  Declared separately from jsLabel so the two can be
compared. -/
def spaceBeforeInternalUppers : List Char → List Char
  | [] => []
  | c :: rest => c :: spaceBeforeUppers rest

/-- Capitalize the first character unconditionally (the specification
wording; uppercasing a non-letter is the identity). -/
def capitalizeFirstChar : List Char → List Char
  | [] => []
  | c :: rest => jsUpperChar c :: rest

/-- The specification's five label steps in order. -/
def specLabel (l : List Char) : List Char :=
  trimWs (collapseSpaces (capitalizeFirstChar (spaceBeforeInternalUppers (underscoresToSpaces l))))

/-! ## JS value model -/

/-- A scalar element of an array value.  Arrays of this code base's data
are flat, so array elements are modelled as scalars. -/
inductive JAtom where
  | aNull
  | aUndef
  | aBool (b : Bool)
  | aNum (q : ℚ)
  | aStr (s : String)
deriving DecidableEq

/-- A loosely-typed field value as the inferencer can receive it. -/
inductive JVal where
  | vNull
  | vUndef
  | vBool (b : Bool)
  | vNum (q : ℚ)
  | vStr (s : String)
  | vDate (t : ℚ)
  | vArr (elems : List JAtom)
  | vObj
deriving DecidableEq

/-- A record: an ordered flat mapping of field names to values (JS object
insertion order, keys unique by construction). -/
abbrev Record := List (String × JVal)

/-- Property read item[field]: first binding, or undefined when absent. -/
def jsGet (item : Record) (field : String) : JVal :=
  match item.find? (fun p => p.1 == field) with
  | some p => p.2
  | none => JVal.vUndef

/-- typeof v === 'boolean'. -/
def isBoolVal : JVal → Bool
  | .vBool _ => true
  | _ => false

/-- typeof v === 'number'. -/
def isNumVal : JVal → Bool
  | .vNum _ => true
  | _ => false

/-- typeof v === 'string'. -/
def isStrVal : JVal → Bool
  | .vStr _ => true
  | _ => false

/-- Array.isArray(v). -/
def isArrVal : JVal → Bool
  | .vArr _ => true
  | _ => false

/-- typeof v === 'object' (true for null, plain objects, Date instances
and arrays). -/
def isObjTypeof : JVal → Bool
  | .vNull => true
  | .vObj => true
  | .vDate _ => true
  | .vArr _ => true
  | _ => false

/-- The object test of inferFieldType:
typeof v === 'object' && v !== null && !Array.isArray(v). -/
def isPlainObjVal (v : JVal) : Bool :=
  isObjTypeof v && !(v == JVal.vNull) && !isArrVal v

/-! ## Number(string) model -/

def digitVal (c : Char) : ℕ := c.toNat - 48

def digitsToNat (l : List Char) : ℕ :=
  l.foldl (fun a c => 10 * a + digitVal c) 0

/-- An unsigned decimal literal: digits, optionally with one decimal point
and digits on at least one side of it. -/
def parseUnsignedDec (l : List Char) : Option ℚ :=
  let intPart := l.takeWhile (fun c => c ≠ '.')
  let rest := l.dropWhile (fun c => c ≠ '.')
  match rest with
  | [] =>
    if decide (intPart ≠ []) && intPart.all isDigitChar then
      some (digitsToNat intPart : ℚ)
    else none
  | _ :: fracPart =>
    if intPart.all isDigitChar && fracPart.all isDigitChar &&
        (decide (intPart ≠ []) || decide (fracPart ≠ [])) then
      some ((digitsToNat intPart : ℚ) + (digitsToNat fracPart : ℚ) / (10 : ℚ) ^ fracPart.length)
    else none

/-- Model of the host conversion Number(string) as used by
isNaN(Number(v)): whitespace is trimmed, the empty string converts to 0,
otherwise an optionally signed decimal literal; none models NaN.
Exponent, hexadecimal and Infinity forms never arise from this code base's
data and are modelled as NaN. -/
def jsStrToNum (s : String) : Option ℚ :=
  let t := trimWs s.toList
  match t with
  | [] => some 0
  | c :: rest =>
    if c = '-' then (parseUnsignedDec rest).map (fun q => -q)
    else if c = '+' then parseUnsignedDec rest
    else parseUnsignedDec t

/-- typeof v === 'string' && !isNaN(Number(v)). -/
def numParseOk : JVal → Bool
  | .vStr s => (jsStrToNum s).isSome
  | _ => false

/-! ## String(v) model -/

/-- Rendering of a JS number for String(v).  The host renders doubles in
decimal; this rendering agrees with it on integers and is, like the
host's, injective on values — the only property the classifier's
distinct-value counting relies on. -/
def numToString (q : ℚ) : String :=
  if q.den = 1 then toString q.num else toString q.num ++ "/" ++ toString q.den

/-- String(v) for one array element. -/
def jAtomToString : JAtom → String
  | .aNull => ""
  | .aUndef => ""
  | .aBool b => if b then "true" else "false"
  | .aNum q => numToString q
  | .aStr s => s

/-- Model of the String(v) conversion (an array joins its elements with a
comma, null and undefined elements joining as empty). -/
def jsToString : JVal → String
  | .vNull => "null"
  | .vUndef => "undefined"
  | .vBool b => if b then "true" else "false"
  | .vNum q => numToString q
  | .vStr s => s
  | .vDate t => "Date:" ++ numToString t
  | .vArr elems => String.intercalate "," (elems.map jAtomToString)
  | .vObj => "[object Object]"

/-! ## Classification predicates -/

/-- values.every(v => typeof v === 'boolean' || v === 'true' || v === 'false'). -/
def boolCheck (values : List JVal) : Bool :=
  values.all (fun v => isBoolVal v || v == JVal.vStr "true" || v == JVal.vStr "false")

/-- values.every(v => typeof v === 'number' || (typeof v === 'string' && !isNaN(Number(v)))). -/
def numCheck (values : List JVal) : Bool :=
  values.all (fun v => isNumVal v || numParseOk v)

/-- Whether any of the lowercase hints occurs in the lowercased field name. -/
def nameHits (hints : List String) (field : String) : Bool :=
  hints.any (fun h => containsSub (lowerList field.toList) h.toList)

def dateFieldHints : List String :=
  ["date", "time", "created", "updated", "timestamp", "birthday", "dob"]

/-- The anchored regex ^\d{4}-\d{2}-\d{2}(T\d{2}:\d{2}:\d{2})? — it is not
end-anchored and its group is optional, so it succeeds exactly when the
string starts with four digits, a dash, two digits, a dash, two digits. -/
def isoDateStart (l : List Char) : Bool :=
  match l with
  | a :: b :: c :: d :: '-' :: e :: f :: '-' :: g :: h :: _ =>
    isDigitChar a && isDigitChar b && isDigitChar c && isDigitChar d &&
      isDigitChar e && isDigitChar f && isDigitChar g && isDigitChar h
  | _ => false

/-- The anchored regex ^\d{1,2}\/\d{1,2}\/\d{4}$. -/
def slashDateFull (l : List Char) : Bool :=
  match splitListOn '/' l with
  | [p1, p2, p3] =>
    decide (1 ≤ p1.length) && decide (p1.length ≤ 2) && p1.all isDigitChar &&
      decide (1 ≤ p2.length) && decide (p2.length ≤ 2) && p2.all isDigitChar &&
      decide (p3.length = 4) && p3.all isDigitChar
  | _ => false

/-- Model of new Date(string) producing a valid date.  The host parser
additionally accepts formats (month names, RFC 2822, bare years) that this
code base never produces and that no claim below depends on; they are
modelled as invalid. -/
def jsDateParseOk (l : List Char) : Bool := isoDateStart l || slashDateFull l

/-- One value of the valuesLookLikeDates test of isDateField. -/
def valueLooksDate : JVal → Bool
  | .vDate _ => true
  | .vStr s => isoDateStart s.toList || slashDateFull s.toList || jsDateParseOk s.toList
  | _ => false

/-- Embedding of isDateField(field, values). -/
def isDateField (field : String) (values : List JVal) : Bool :=
  nameHits dateFieldHints field || values.any valueLooksDate

def emailFieldHints : List String := ["email", "e-mail", "mail"]

/-- The regex ^[^\s@]+@[^\s@]+\.[^\s@]+$: no whitespace anywhere, a single
at-sign with a nonempty part before it, and after it a dot preceded and
followed by at least one character. -/
def emailRegexMatch (l : List Char) : Bool :=
  let localPart := l.takeWhile (fun c => c ≠ '@')
  let rest := l.dropWhile (fun c => c ≠ '@')
  match rest with
  | [] => false
  | _ :: domain =>
    decide (localPart ≠ []) && localPart.all (fun c => !isWsChar c) &&
      decide ('@' ∉ domain) && domain.all (fun c => !isWsChar c) &&
      decide ('.' ∈ (domain.drop 1).dropLast)

/-- Embedding of isEmailField(field, values). -/
def isEmailField (field : String) (values : List JVal) : Bool :=
  nameHits emailFieldHints field ||
    values.any (fun v =>
      match v with
      | .vStr s => emailRegexMatch s.toList
      | _ => false)

def urlFieldHints : List String := ["url", "link", "website", "site", "web"]

/-- The regex ^(https?:\/\/|www\.)[^\s$.?#].[^\s]*$ with the i flag: one of
the three prefixes (case-insensitively), then a character outside
whitespace and $.?#, then any character, then no whitespace to the end. -/
def urlRegexMatch (l : List Char) : Bool :=
  let ll := lowerList l
  let afterLen : Option ℕ :=
    if startsWithL ll ("https://".toList) then some 8
    else if startsWithL ll ("http://".toList) then some 7
    else if startsWithL ll ("www.".toList) then some 4
    else none
  match afterLen with
  | none => false
  | some k =>
    match l.drop k with
    | [] => false
    | c :: rest2 =>
      !(isWsChar c || c = '$' || c = '.' || c = '?' || c = '#') &&
        match rest2 with
        | [] => false
        | _ :: rest3 => rest3.all (fun ch => !isWsChar ch)

/-- Embedding of isUrlField(field, values). -/
def isUrlField (field : String) (values : List JVal) : Bool :=
  nameHits urlFieldHints field ||
    values.any (fun v =>
      match v with
      | .vStr s => urlRegexMatch s.toList
      | _ => false)

/-- A JS Set of strings materialized in insertion order: duplicates
removed, first occurrence kept. -/
def dedupKeys (l : List String) : List String :=
  l.foldl (fun acc k => if k ∈ acc then acc else acc.concat k) []

/-- Embedding of isEnumField(values): the distinct stringified values
number at most 10 and fewer than half the value count (size < length / 2
under real JS division, i.e. 2 * size < length). -/
def isEnumField (values : List JVal) : Bool :=
  let uniq := dedupKeys (values.map jsToString)
  decide (uniq.length ≤ 10) && decide (2 * uniq.length < values.length)

/-! ## Number formatting inference -/

/-- A numeric column's formatting rule; percent carries the batch divisor
the captured formatter applies to every value of the field. -/
inductive NumFmt where
  | currency
  | percent (divisor : ℚ)
  | plain
deriving DecidableEq

def currencyFieldHints : List String :=
  ["price", "amount", "value", "cost", "salary", "budget"]

def percentFieldHints : List String := ["rate", "percent", "yield", "ratio"]

/-- Model of the implicit ToNumber coercion Math.max applies to each
spread argument (none models NaN).  Arrays and plain objects coerce
through further host machinery that the number-typed guard of
inferFieldType has already excluded, so they are modelled as NaN. -/
def jsToNumber : JVal → Option ℚ
  | .vNum q => some q
  | .vStr s => jsStrToNum s
  | .vBool b => some (if b then 1 else 0)
  | .vNull => some 0
  | .vDate t => some t
  | .vUndef => none
  | .vArr _ => none
  | .vObj => none

/-- Math.max over rationals (none for the empty spread, whose host result
-Infinity also fails the > 1 test below). -/
def mathMaxQ : List ℚ → Option ℚ
  | [] => none
  | q :: qs => some (qs.foldl max q)

/-- The divisor line of the percentage branch:
Math.max(...values) > 1 ? 1 : 100 (a NaN maximum fails the comparison,
giving 100). -/
def percentDivisor (values : List JVal) : ℚ :=
  match values.mapM jsToNumber with
  | none => 100
  | some qs =>
    match mathMaxQ qs with
    | none => 100
    | some m => if 1 < m then 1 else 100

/-- Embedding of inferNumberFormatting(field, values). -/
def inferNumberFormatting (field : String) (values : List JVal) : NumFmt :=
  if nameHits currencyFieldHints field then NumFmt.currency
  else if nameHits percentFieldHints field then NumFmt.percent (percentDivisor values)
  else NumFmt.plain

/-! ## Field classification and column definitions -/

/-- The type-specific part of a produced column definition. -/
inductive CellCfg where
  | booleanCfg
  | numberCfg (fmt : NumFmt)
  | dateCfg
  | arrayCfg
  | objectCfg
  | emailCfg
  | urlCfg
  | enumCfg (choices : List String)
  | textCfg
deriving DecidableEq

/-- The filter/colDef pair returned by inferFieldType. -/
structure TypeInfo where
  filter : String
  colDef : CellCfg
deriving DecidableEq

/-- Embedding of inferFieldType(field, values): the fixed precedence chain
of guarded classifications, ending at the free-text default. -/
def inferFieldType (field : String) (values : List JVal) : TypeInfo :=
  if boolCheck values then ⟨"agSetColumnFilter", CellCfg.booleanCfg⟩
  else if numCheck values then
    ⟨"agNumberColumnFilter", CellCfg.numberCfg (inferNumberFormatting field values)⟩
  else if isDateField field values then ⟨"agDateColumnFilter", CellCfg.dateCfg⟩
  else if values.any isArrVal then ⟨"agTextColumnFilter", CellCfg.arrayCfg⟩
  else if values.any isPlainObjVal then ⟨"agTextColumnFilter", CellCfg.objectCfg⟩
  else if isEmailField field values then ⟨"agTextColumnFilter", CellCfg.emailCfg⟩
  else if isUrlField field values then ⟨"agTextColumnFilter", CellCfg.urlCfg⟩
  else if isEnumField values then
    ⟨"agSetColumnFilter", CellCfg.enumCfg (dedupKeys (values.map jsToString))⟩
  else ⟨"agTextColumnFilter", CellCfg.textCfg⟩

/-- One produced column definition.  The early return for a field with no
non-missing sampled values carries only field, headerName and the text
filter, modelled by sortable = resizable = false and cfg = none. -/
structure ColDef where
  field : String
  headerName : String
  filter : String
  sortable : Bool
  resizable : Bool
  cfg : Option CellCfg
deriving DecidableEq

/-- The minimal text-filter configuration of the early return. -/
def minimalCol (field : String) : ColDef :=
  ⟨field, formatHeaderName field, "agTextColumnFilter", false, false, none⟩

/-- Math.min(50, Math.max(5, Math.ceil(n * 0.1))): the ceiling of a tenth,
clamped to [5, 50]; in ℕ, ceil(n / 10) is (n + 9) / 10. -/
def sampleSizeOf (n : ℕ) : ℕ := min 50 (max 5 ((n + 9) / 10))

/-- rowData.slice(0, sampleSize). -/
def sampleOf (rows : List Record) : List Record :=
  rows.take (sampleSizeOf rows.length)

/-- Object.keys(item). -/
def recordKeys (r : Record) : List String := r.map Prod.fst

/-- The Set of keys across all sampled records, in insertion order. -/
def discoveredKeys (rows : List Record) : List String :=
  dedupKeys ((sampleOf rows).map recordKeys).flatten

/-- The non-missing sampled values of one field:
sample.map(item => item[field]).filter(val => val !== null && val !== undefined). -/
def sampledValues (rows : List Record) (field : String) : List JVal :=
  ((sampleOf rows).map (fun item => jsGet item field)).filter
    (fun v => !(v == JVal.vNull) && !(v == JVal.vUndef))

/-- The column definition built for one discovered field from the sample. -/
def colFor (sample : List Record) (field : String) : ColDef :=
  let values := (sample.map (fun item => jsGet item field)).filter
    (fun v => !(v == JVal.vNull) && !(v == JVal.vUndef))
  if values.isEmpty then minimalCol field
  else
    let ti := inferFieldType field values
    ⟨field, formatHeaderName field, ti.filter, true, true, some ti.colDef⟩

/-- Embedding of inferColumnDefs(rowData) (the 10% / min 5 / max 50
policy of the generateFixedIncomeData.ts companion module). -/
def inferColumnDefs (rows : List Record) : List ColDef :=
  if rows.isEmpty then []
  else (discoveredKeys rows).map (colFor (sampleOf rows))

/-! ## Concrete data for evaluations -/

/-- 200 records with no fields at all. -/
def rowsSensA : List Record := List.replicate 200 []

/-- 200 records agreeing with rowsSensA on the first 19 and differing at
record 20 (inside the sampling window). -/
def rowsSensB : List Record :=
  List.replicate 19 [] ++ ([("x", JVal.vStr "y")] :: List.replicate 180 [])

/-- 200 records agreeing with rowsSensA on the first 20 and differing from
record 21 on (outside the sampling window). -/
def rowsTailB : List Record :=
  List.replicate 20 [] ++ List.replicate 180 [("x", JVal.vStr "y")]

/-- Ten sampled values of a status-like field: three distinct strings. -/
def statusValues : List JVal :=
  [JVal.vStr "active", JVal.vStr "pending", JVal.vStr "closed", JVal.vStr "active",
   JVal.vStr "active", JVal.vStr "pending", JVal.vStr "active", JVal.vStr "closed",
   JVal.vStr "active", JVal.vStr "pending"]

/-- Two records with a field that is missing-or-null everywhere and a
free-text field. -/
def rowsNine : List Record :=
  [[("gone", JVal.vNull), ("desc", JVal.vStr "hello world")],
   [("gone", JVal.vUndef), ("desc", JVal.vStr "other thing")]]

/-- The sampled values of the free-text field of rowsNine. -/
def vsNine : List JVal := [JVal.vStr "hello world", JVal.vStr "other thing"]

/-! ## Theorems: record generator -/

/-- C1: for every record the generator produces, under the faker range
contract the derived fields satisfy askPrice ≥ bidPrice,
bidAskSpread = askPrice − bidPrice,
modifiedDuration = duration / (1 + ytm/100),
macaulayDuration = duration × (1 + ytm/100) and
costBasis = marketValue − unrealizedGainLoss, each dependent computed from
the already-drawn inputs of the same record. -/
theorem derived_risk_and_sizing_relations (id : ℕ) (now : ℚ) (d : Draws)
    (h : UnitDraws d) :
    (generatePosition id now d).bidPrice ≤ (generatePosition id now d).askPrice ∧
    (generatePosition id now d).bidAskSpread =
      (generatePosition id now d).askPrice - (generatePosition id now d).bidPrice ∧
    (generatePosition id now d).modifiedDuration =
      (generatePosition id now d).duration / (1 + (generatePosition id now d).ytm / 100) ∧
    (generatePosition id now d).macaulayDuration =
      (generatePosition id now d).duration * (1 + (generatePosition id now d).ytm / 100) ∧
    (generatePosition id now d).costBasis =
      (generatePosition id now d).marketValue - (generatePosition id now d).unrealizedGainLoss := by
  obtain ⟨_, _, _, _, _, _, _, _, _, _, _, hbid, hask, _, _, _, _⟩ := h
  refine ⟨?_, rfl, rfl, rfl, rfl⟩
  show fakerFloat 95 105 d.uBidPrice ≤
    fakerFloat (fakerFloat 95 105 d.uBidPrice) (fakerFloat 95 105 d.uBidPrice * 1.02) d.uAskPrice
  unfold fakerFloat
  nlinarith [hbid.1, hbid.2, hask.1, hask.2]

/-- Witness for C1: the relations hold at concrete all-zero draws. -/
theorem derived_risk_and_sizing_relations_witness :
    UnitDraws d0 ∧
    ((generatePosition 1 0 d0).bidPrice ≤ (generatePosition 1 0 d0).askPrice ∧
    (generatePosition 1 0 d0).bidAskSpread =
      (generatePosition 1 0 d0).askPrice - (generatePosition 1 0 d0).bidPrice ∧
    (generatePosition 1 0 d0).modifiedDuration =
      (generatePosition 1 0 d0).duration / (1 + (generatePosition 1 0 d0).ytm / 100) ∧
    (generatePosition 1 0 d0).macaulayDuration =
      (generatePosition 1 0 d0).duration * (1 + (generatePosition 1 0 d0).ytm / 100) ∧
    (generatePosition 1 0 d0).costBasis =
      (generatePosition 1 0 d0).marketValue - (generatePosition 1 0 d0).unrealizedGainLoss) :=
  ⟨by decide, derived_risk_and_sizing_relations 1 0 d0 (by decide)⟩

/-- C2: generate(n) for a non-negative integer n returns exactly n records
whose sequence ids are 1, 2, ..., n in order (unique, 1-based, contiguous);
generate(0) is the empty sequence. -/
theorem generate_length_and_ids (n : ℕ) (now : ℚ) (ds : ℕ → Draws) :
    (generateFixedIncomeData (n : ℚ) now ds).length = n ∧
    (generateFixedIncomeData (n : ℚ) now ds).map Position.id =
      (List.range n).map (fun i => i + 1) ∧
    generateFixedIncomeData ((0 : ℕ) : ℚ) now ds = [] := by
  have hiters : jsLoopIters (n : ℚ) = n := by
    unfold jsLoopIters
    rcases n with _ | m
    · simp
    · rw [if_neg, Int.floor_natCast, Int.toNat_natCast]
      push_neg
      exact_mod_cast Nat.succ_le_succ (Nat.zero_le m)
  refine ⟨?_, ?_, ?_⟩
  · simp [generateFixedIncomeData, hiters]
  · unfold generateFixedIncomeData
    rw [hiters, List.map_map]
    exact List.map_congr_left (fun i _ => rfl)
  · simp [generateFixedIncomeData, jsLoopIters]

/-- C4: a generated record's call date and call price are non-null exactly
when hasCallFeature is true, and its put date and put price are non-null
exactly when hasPutFeature is true; with the flag false the fields are
null, never zero or omitted.  Stated as equality of the Option presence
bit with the flag. -/
theorem call_put_feature_nullity (id : ℕ) (now : ℚ) (d : Draws) :
    (generatePosition id now d).nextCallDate.isSome =
      (generatePosition id now d).hasCallFeature ∧
    (generatePosition id now d).callPrice.isSome =
      (generatePosition id now d).hasCallFeature ∧
    (generatePosition id now d).nextPutDate.isSome =
      (generatePosition id now d).hasPutFeature ∧
    (generatePosition id now d).putPrice.isSome =
      (generatePosition id now d).hasPutFeature := by
  cases hc : d.bCall <;> cases hp : d.bPut <;>
    simp [generatePosition, hc, hp]

/-- C8 counterexample: the generator does not reject a negative count with
an invalid-argument signal; it silently returns the empty sequence (the
loop body never runs), so the claim as stated is false. -/
theorem negative_count_silently_returns_empty :
    generateFixedIncomeData (-5) 0 (fun _ => d0) = [] := by decide

/-- C8 amended: the generator performs no count validation: a negative
count silently yields the empty sequence, the returned length always
equals the number of loop iterations, and a non-integer count n + 1/2 is
silently coerced to n records. -/
theorem generator_coerces_invalid_counts (numRows : ℚ) (now : ℚ) (ds : ℕ → Draws) :
    (numRows < 0 → generateFixedIncomeData numRows now ds = []) ∧
    (generateFixedIncomeData numRows now ds).length = jsLoopIters numRows ∧
    (∀ n : ℕ, jsLoopIters ((n : ℚ) + 1/2) = n) := by
  refine ⟨?_, ?_, ?_⟩
  · intro hneg
    have : jsLoopIters numRows = 0 := by
      unfold jsLoopIters
      rw [if_pos (by linarith)]
    simp [generateFixedIncomeData, this]
  · simp [generateFixedIncomeData]
  · intro n
    unfold jsLoopIters
    rcases n with _ | m
    · norm_num
    · rw [if_neg, add_comm, Int.floor_add_nat]
      · norm_num
      · push_neg
        have h1 : (1 : ℚ) ≤ ((m + 1 : ℕ) : ℚ) := by
          exact_mod_cast Nat.succ_le_succ (Nat.zero_le m)
        linarith [h1]

/-- Witness for C8 amended: at count −5 the result is empty, its length is
the iteration count, and count 2 + 1/2 coerces to 2 records. -/
theorem generator_coerces_invalid_counts_witness :
    generateFixedIncomeData (-5) 0 (fun _ => d0) = [] ∧
    (generateFixedIncomeData (-5) 0 (fun _ => d0)).length = jsLoopIters (-5) ∧
    jsLoopIters ((2 : ℕ) + 1/2 : ℚ) = 2 :=
  ⟨(generator_coerces_invalid_counts (-5) 0 (fun _ => d0)).1 (by decide),
   (generator_coerces_invalid_counts (-5) 0 (fun _ => d0)).2.1,
   (generator_coerces_invalid_counts (-5) 0 (fun _ => d0)).2.2 2⟩

/-- C10: for every record the generator produces, askPrice lies in the
closed interval [bidPrice, bidPrice × 1.02], so the bid/ask spread is
non-negative and never exceeds 2% of bidPrice. -/
theorem bid_ask_spread_bounds (id : ℕ) (now : ℚ) (d : Draws) (h : UnitDraws d) :
    (generatePosition id now d).bidPrice ≤ (generatePosition id now d).askPrice ∧
    (generatePosition id now d).askPrice ≤ (generatePosition id now d).bidPrice * 1.02 ∧
    0 ≤ (generatePosition id now d).bidAskSpread ∧
    (generatePosition id now d).bidAskSpread ≤ 0.02 * (generatePosition id now d).bidPrice := by
  obtain ⟨_, _, _, _, _, _, _, _, _, _, _, hbid, hask, _, _, _, _⟩ := h
  have key : fakerFloat 95 105 d.uBidPrice ≤
      fakerFloat (fakerFloat 95 105 d.uBidPrice) (fakerFloat 95 105 d.uBidPrice * 1.02)
        d.uAskPrice ∧
      fakerFloat (fakerFloat 95 105 d.uBidPrice) (fakerFloat 95 105 d.uBidPrice * 1.02)
        d.uAskPrice ≤ fakerFloat 95 105 d.uBidPrice * 1.02 := by
    unfold fakerFloat
    constructor
    · nlinarith [hbid.1, hbid.2, hask.1, hask.2]
    · nlinarith [hbid.1, hbid.2, hask.1, hask.2]
  refine ⟨key.1, key.2, ?_, ?_⟩
  · show (0 : ℚ) ≤ fakerFloat (fakerFloat 95 105 d.uBidPrice)
      (fakerFloat 95 105 d.uBidPrice * 1.02) d.uAskPrice - fakerFloat 95 105 d.uBidPrice
    have := key.1
    linarith [this]
  · show fakerFloat (fakerFloat 95 105 d.uBidPrice)
      (fakerFloat 95 105 d.uBidPrice * 1.02) d.uAskPrice - fakerFloat 95 105 d.uBidPrice ≤
      0.02 * fakerFloat 95 105 d.uBidPrice
    have := key.2
    unfold fakerFloat at this ⊢
    linarith [this]

/-- Witness for C10: the spread bounds hold at concrete all-zero draws. -/
theorem bid_ask_spread_bounds_witness :
    UnitDraws d0 ∧
    ((generatePosition 1 0 d0).bidPrice ≤ (generatePosition 1 0 d0).askPrice ∧
    (generatePosition 1 0 d0).askPrice ≤ (generatePosition 1 0 d0).bidPrice * 1.02 ∧
    0 ≤ (generatePosition 1 0 d0).bidAskSpread ∧
    (generatePosition 1 0 d0).bidAskSpread ≤ 0.02 * (generatePosition 1 0 d0).bidPrice) :=
  ⟨by decide, bid_ask_spread_bounds 1 0 d0 (by decide)⟩

/-! ## Theorems: schema inferencer -/

theorem jsUpperChar_of_upper (c : Char) (h : isUpperChar c = true) : jsUpperChar c = c := by
  unfold jsUpperChar
  rw [if_neg]
  simp only [isUpperChar, Bool.and_eq_true, decide_eq_true_eq] at h
  simp only [isLowerAsciiChar, Bool.and_eq_true, decide_eq_true_eq, not_and]
  omega

theorem jsUpperChar_of_not_word (c : Char) (h : isWordChar c = false) : jsUpperChar c = c := by
  unfold jsUpperChar
  rw [if_neg]
  simp only [isWordChar, isUpperChar, isLowerAsciiChar, isDigitChar, Bool.or_eq_false_iff,
    Bool.and_eq_false_iff, decide_eq_false_iff_not] at h
  simp only [isLowerAsciiChar, Bool.and_eq_true, decide_eq_true_eq, not_and]
  omega

theorem not_ws_of_upper (c : Char) (h : isUpperChar c = true) : isWsChar c = false := by
  simp only [isUpperChar, Bool.and_eq_true, decide_eq_true_eq] at h
  simp only [isWsChar, Bool.or_eq_false_iff, decide_eq_false_iff_not]
  omega

theorem collapseGo_cons_space (c : Char) (S : List Char) (h : isWsChar c = false) :
    collapseGo false (' ' :: c :: S) = ' ' :: collapseGo false (c :: S) := by
  simp [collapseGo, h, show isWsChar ' ' = true from by decide]

theorem trimWs_cons_space (x : List Char) : trimWs (' ' :: x) = trimWs x := by
  unfold trimWs
  rw [List.dropWhile_cons_of_pos (by decide)]

theorem spec_label_matches (l : List Char) : specLabel l = jsLabel l := by
  unfold specLabel jsLabel
  generalize underscoresToSpaces l = t
  cases t with
  | nil => rfl
  | cons c rest =>
    cases hc : isUpperChar c with
    | true =>
      simp only [spaceBeforeUppers, spaceBeforeInternalUppers, capitalizeFirstWord,
        capitalizeFirstChar, hc, if_true]
      rw [jsUpperChar_of_upper c hc]
      rw [if_neg (by decide : ¬ isWordChar ' ' = true)]
      unfold collapseSpaces
      rw [collapseGo_cons_space c _ (not_ws_of_upper c hc), trimWs_cons_space]
    | false =>
      simp only [spaceBeforeUppers, spaceBeforeInternalUppers, capitalizeFirstChar, hc,
        if_false, Bool.false_eq_true]
      cases hw : isWordChar c with
      | true => simp only [capitalizeFirstWord, hw, if_true]
      | false =>
        simp only [capitalizeFirstWord, hw, Bool.false_eq_true, if_false]
        rw [jsUpperChar_of_not_word c hw]

/-- C7: the label the code derives for every field name agrees with the
specification's algorithm — replace underscores with spaces, insert a
space before each internal uppercase letter, capitalize the first
character, collapse repeated whitespace, trim — and in particular
"instrumentType" labels as "Instrument Type" and "issue_date" as
"Issue date". -/
theorem label_derivation_and_examples :
    (∀ l : List Char, specLabel l = jsLabel l) ∧
    formatHeaderName "instrumentType" = "Instrument Type" ∧
    formatHeaderName "issue_date" = "Issue date" :=
  ⟨spec_label_matches, by decide, by decide⟩

set_option maxRecDepth 8000 in
/-- C3: inference of an empty input is the empty sequence; under the 10%,
min 5, max 50 policy the window size at 200 records is exactly 20; the
result depends only on the first 20 of 200 records (record 21 onward is
never inspected); and record 20 itself is inspected — the window is
exactly the first 20 records. -/
theorem sampling_window_first_twenty :
    inferColumnDefs ([] : List Record) = [] ∧
    sampleSizeOf 200 = 20 ∧
    (∀ rows rows2 : List Record, rows.length = 200 → rows2.length = 200 →
      rows.take 20 = rows2.take 20 → inferColumnDefs rows = inferColumnDefs rows2) ∧
    (rowsSensA.length = 200 ∧ rowsSensB.length = 200 ∧ rowsSensA.take 19 = rowsSensB.take 19 ∧
      inferColumnDefs rowsSensA ≠ inferColumnDefs rowsSensB) := by
  refine ⟨rfl, rfl, ?_, by decide, by decide, by decide, by decide⟩
  intro rows rows2 h1 h2 ht
  have hs : sampleOf rows = sampleOf rows2 := by
    unfold sampleOf
    rw [h1, h2]
    exact ht
  cases rows with
  | nil => simp at h1
  | cons a as =>
    cases rows2 with
    | nil => simp at h2
    | cons b bs =>
      unfold inferColumnDefs discoveredKeys
      rw [hs]
      simp only [List.isEmpty_cons, Bool.false_eq_true, if_false]

set_option maxRecDepth 8000 in
/-- Witness for C3: two concrete 200-record inputs agreeing on their first
20 records (one of them carrying a field from record 21 on) infer
identically. -/
theorem sampling_window_first_twenty_witness :
    inferColumnDefs rowsSensA = inferColumnDefs rowsTailB :=
  sampling_window_first_twenty.2.2.1 rowsSensA rowsTailB (by decide) (by decide) (by decide)

/-- C5 (documents the defect): for the percentage-formatted field
couponRate with sampled maximum 5 (greater than 1), the code picks
display divisor 1, not the divisor 100 the specification (and the code's
own comment) require for already-scaled values; the ternary's branches
are inverted. -/
theorem percent_divisor_contradicts_spec :
    nameHits percentFieldHints "couponRate" = true ∧
    percentDivisor [JVal.vNum 5] = 1 ∧
    inferNumberFormatting "couponRate" [JVal.vNum 5] = NumFmt.percent 1 :=
  ⟨by decide, by decide, by decide⟩

/-- C6: a sampled field whose values fail every earlier classification
rule and have low cardinality — at most 10 distinct stringified values,
fewer than half the sample — classifies as enumerated, and its choice set
is exactly the distinct stringified values in first-seen order with
duplicates removed. -/
theorem enum_classification (field : String) (values : List JVal)
    (hb : boolCheck values = false) (hn : numCheck values = false)
    (hd : isDateField field values = false) (ha : values.any isArrVal = false)
    (ho : values.any isPlainObjVal = false) (he : isEmailField field values = false)
    (hu : isUrlField field values = false) (hen : isEnumField values = true) :
    inferFieldType field values =
      ⟨"agSetColumnFilter", CellCfg.enumCfg (dedupKeys (values.map jsToString))⟩ ∧
    (dedupKeys (values.map jsToString)).length ≤ 10 ∧
    2 * (dedupKeys (values.map jsToString)).length < values.length := by
  constructor
  · simp [inferFieldType, hb, hn, hd, ha, ho, he, hu, hen]
  · have h2 := hen
    unfold isEnumField at h2
    simp only [Bool.and_eq_true, decide_eq_true_eq] at h2
    exact h2

/-- Witness for C6: a status field with 3 distinct string values across 10
sampled records classifies as enumerated with those 3 values in
first-seen order. -/
theorem enum_classification_witness :
    (inferFieldType "status" statusValues =
      ⟨"agSetColumnFilter", CellCfg.enumCfg (dedupKeys (statusValues.map jsToString))⟩ ∧
    (dedupKeys (statusValues.map jsToString)).length ≤ 10 ∧
    2 * (dedupKeys (statusValues.map jsToString)).length < statusValues.length) ∧
    dedupKeys (statusValues.map jsToString) = ["active", "pending", "closed"] :=
  ⟨enum_classification "status" statusValues (by decide) (by decide) (by decide) (by decide)
    (by decide) (by decide) (by decide) (by decide), by decide⟩

theorem colFor_field (s : List Record) (f : String) : (colFor s f).field = f := by
  unfold colFor
  dsimp only
  split <;> rfl

theorem map_colFor_field (s : List Record) (ks : List String) :
    (ks.map (colFor s)).map ColDef.field = ks := by
  induction ks with
  | nil => rfl
  | cons k t ih => simp [colFor_field, ih]

theorem dedupKeys_nodup (l : List String) : (dedupKeys l).Nodup := by
  have key : ∀ (l acc : List String), acc.Nodup →
      (List.foldl (fun acc k => if k ∈ acc then acc else acc.concat k) acc l).Nodup := by
    intro l
    induction l with
    | nil => intro acc h; exact h
    | cons x xs ih =>
      intro acc h
      simp only [List.foldl_cons]
      by_cases hx : x ∈ acc
      · rw [if_pos hx]
        exact ih acc h
      · rw [if_neg hx]
        apply ih
        simp [List.concat_eq_append, List.nodup_append, h, hx]
  exact key l [] List.nodup_nil

/-- C9: the inferencer is total and structured by fallthrough — for every
input it emits exactly one configuration per field key discovered in the
sample (in first-seen order, without duplicates); values failing every
classification predicate terminate at the free-text default; and a field
that is null or undefined in every sampled occurrence receives the
minimal text-filter configuration. -/
theorem inferencer_total_fallthrough :
    (∀ rows : List Record, (inferColumnDefs rows).map ColDef.field = discoveredKeys rows ∧
      (discoveredKeys rows).Nodup) ∧
    (∀ (field : String) (values : List JVal), boolCheck values = false →
      numCheck values = false → isDateField field values = false →
      values.any isArrVal = false → values.any isPlainObjVal = false →
      isEmailField field values = false → isUrlField field values = false →
      isEnumField values = false →
      inferFieldType field values = ⟨"agTextColumnFilter", CellCfg.textCfg⟩) ∧
    (∀ (rows : List Record) (field : String), field ∈ discoveredKeys rows →
      sampledValues rows field = [] → minimalCol field ∈ inferColumnDefs rows) := by
  refine ⟨?_, ?_, ?_⟩
  · intro rows
    refine ⟨?_, dedupKeys_nodup _⟩
    cases rows with
    | nil => rfl
    | cons a as =>
      unfold inferColumnDefs
      simp only [List.isEmpty_cons, Bool.false_eq_true, if_false]
      exact map_colFor_field _ _
  · intro field values hb hn hd ha ho he hu hen
    simp [inferFieldType, hb, hn, hd, ha, ho, he, hu, hen]
  · intro rows field hmem hval
    cases rows with
    | nil =>
      rw [show discoveredKeys ([] : List Record) = [] from rfl] at hmem
      exact absurd hmem (List.not_mem_nil field)
    | cons a as =>
      unfold inferColumnDefs
      simp only [List.isEmpty_cons, Bool.false_eq_true, if_false]
      refine List.mem_map.2 ⟨field, hmem, ?_⟩
      unfold sampledValues at hval
      simp [colFor, hval]

/-- Witness for C9: on two concrete records, the emitted fields are
exactly the discovered keys without duplicates, a field failing every
predicate lands at the free-text default, and a field that is null or
undefined in every sampled occurrence gets the minimal text
configuration. -/
theorem inferencer_total_fallthrough_witness :
    ((inferColumnDefs rowsNine).map ColDef.field = discoveredKeys rowsNine ∧
      (discoveredKeys rowsNine).Nodup) ∧
    inferFieldType "desc" vsNine = ⟨"agTextColumnFilter", CellCfg.textCfg⟩ ∧
    minimalCol "gone" ∈ inferColumnDefs rowsNine :=
  ⟨inferencer_total_fallthrough.1 rowsNine,
   inferencer_total_fallthrough.2.1 "desc" vsNine (by decide) (by decide) (by decide)
     (by decide) (by decide) (by decide) (by decide) (by decide),
   inferencer_total_fallthrough.2.2 rowsNine "gone" (by decide) (by decide)⟩

end AgGrid31
